import Mathlib

/-!
Shallow embedding of the cost aggregation core of `src/app.py`
(project-profit-analysis): the rate table constants, the lenient numeric
parser `parse_number_input`, the estimated/actual cost breakdown dictionaries,
the per-category summary (variance) table, and the final comparison table.

Python numbers are modelled as exact rationals (`ℚ`); Python's `round(x, 2)`
is modelled as round-half-to-even at two decimal places, and dictionaries with
string keys as association lists whose key lists are duplicate-free.
-/

namespace App

/-- Round-half-to-even to the nearest integer, as Python's builtin `round`
does on the exact value. -/
def rhe (x : ℚ) : ℤ :=
  let f : ℤ := ⌊x⌋
  if 2 * (x - f) < 1 then f
  else if 1 < 2 * (x - f) then f + 1
  else if f % 2 = 0 then f else f + 1

/-- Python's `round(x, 2)`: round to two decimal places, half to even. -/
def round2 (x : ℚ) : ℚ := (rhe (100 * x) : ℚ) / 100

theorem rhe_intCast (k : ℤ) : rhe (k : ℚ) = k := by
  unfold rhe
  simp

theorem round2_zero : round2 0 = 0 := by
  unfold round2
  rw [show (100 : ℚ) * 0 = ((0 : ℤ) : ℚ) by norm_num, rhe_intCast]
  norm_num

/-- `round2` lands on an exact two-decimal value, so rounding again is the
identity. -/
theorem round2_round2 (x : ℚ) : round2 (round2 x) = round2 x := by
  unfold round2
  rw [show (100 : ℚ) * ((rhe (100 * x) : ℚ) / 100) = ((rhe (100 * x) : ℤ) : ℚ) by ring]
  rw [rhe_intCast]

/-- Line 18: `LABOR_COST_WORKER = 10`. -/
def LABOR_COST_WORKER : ℚ := 10

/-- Line 19: `LABOR_COST_OFFICE = 10`. -/
def LABOR_COST_OFFICE : ℚ := 10

/-- Lines 20-24: `MACHINE_COST = {'CNC': 10, 'Robot': 10, 'Autoclave': 10}`. -/
def MACHINE_COST : List (String × ℚ) := [("CNC", 10), ("Robot", 10), ("Autoclave", 10)]

/-- The spec's Rate Table: worker/office labor rates plus machine rates.
In `app.py` these are the module constants of lines 18-24. -/
structure RateTable where
  laborWorkerRate : ℚ
  laborOfficeRate : ℚ
  machineRates : List (String × ℚ)

/-- The rate table actually configured in `app.py` (all rates are 10). -/
def theRateTable : RateTable :=
  { laborWorkerRate := LABOR_COST_WORKER
    laborOfficeRate := LABOR_COST_OFFICE
    machineRates := MACHINE_COST }

/-- The spec's Cost Input Snapshot: raw hours per category plus a direct
material cost (lines 44-58 of `app.py` collect these from the form; the
machine-hours dictionary is built over the machine names of the rate table,
so it is modelled as a total function). -/
structure Snapshot where
  laborWorkerHours : ℚ
  laborOfficeHours : ℚ
  machineHours : String → ℚ
  materialCost : ℚ

/-- A cost breakdown is the `est_cost` / `act_cost` dictionary: category name
to cost. -/
abbrev Breakdown := List (String × ℚ)

/-- Lines 65-71 (and identically 74-80): build the cost dictionary — worker
labor hours times the worker rate, office labor hours times the office rate,
material cost passed through, then one entry per machine with hours times
that machine's rate. -/
def computeBreakdown (snap : Snapshot) (rt : RateTable) : Breakdown :=
  [("Labor - Worker", snap.laborWorkerHours * rt.laborWorkerRate),
   ("Labor - Office", snap.laborOfficeHours * rt.laborOfficeRate),
   ("Material", snap.materialCost)]
  ++ rt.machineRates.map (fun p => (p.1, snap.machineHours p.1 * p.2))

/-- Line 72 / 81: `sum(est_cost.values())`. -/
def sumValues (b : Breakdown) : ℚ := (b.map Prod.snd).sum

/-- Python's `dict.get(k, d)` on an association list. -/
def lookupD (b : Breakdown) (k : String) (d : ℚ) : ℚ :=
  match b.lookup k with
  | some v => v
  | none => d

/-- One row of the summary table appended at lines 92-98 of `app.py`. -/
structure VarianceRow where
  category : String
  estimated : ℚ
  actual : ℚ
  differenceAbs : ℚ
  differencePct : ℚ
  deriving DecidableEq, Repr

/-- Lines 87-98: for every category in the estimated dictionary, take the
actual value via `act_cost.get(category, 0.0)`, the difference
`estimated - actual`, and the percentage difference, 0 when the estimate is
0 and rounded to two decimals before being stored in the row. -/
def computeVariance (est act : Breakdown) : List VarianceRow :=
  est.map (fun p =>
    let estimated := p.2
    let actual := lookupD act p.1 0
    let diff := estimated - actual
    let percent_diff := if estimated ≠ 0 then diff / estimated * 100 else 0
    { category := p.1
      estimated := estimated
      actual := actual
      differenceAbs := diff
      differencePct := round2 percent_diff })

/-- Lines 151-170: the final comparison table `final_df` — estimated total,
actual total without extras, warranty, afterwork, actual total with extras,
absolute gap, and percentage gap (rounded to two decimals, 0 when the
estimated total is 0). -/
def finalRows (est act : Breakdown) (warranty_cost afterwork_cost : ℚ) :
    List (String × ℚ) :=
  let est_total := sumValues est
  let act_total := sumValues act
  let act_total_with_extra := act_total + warranty_cost + afterwork_cost
  [("Estimated Total", est_total),
   ("Actual Total (No Warranty/Afterwork)", act_total),
   ("Warranty Cost", warranty_cost),
   ("Afterwork Cost", afterwork_cost),
   ("Actual Total (All Included)", act_total_with_extra),
   ("Gap (USD)", act_total_with_extra - est_total),
   ("Gap (%)", if est_total ≠ 0
     then round2 ((act_total_with_extra - est_total) / est_total * 100)
     else 0)]

/-- Value of a digit character. -/
def digitVal (c : Char) : ℕ := c.toNat - 48

/-- Parse a run of decimal digit characters, most significant first. -/
def parseNatDigits (l : List Char) : ℕ :=
  l.foldl (fun a c => 10 * a + digitVal c) 0

/-- The decimal-literal fragment of Python's `float` on an unsigned string:
leading digits, then optionally a dot and fractional digits; at least one
digit overall and nothing else.  (Exponents, `inf`/`nan` and surrounding
whitespace, which `float` also accepts, never arise in this program's
round-trips and are not modelled.) -/
def parseUnsigned (l : List Char) : Option ℚ :=
  let ds := l.takeWhile Char.isDigit
  let rest := l.dropWhile Char.isDigit
  if rest = [] then
    if ds = [] then none else some (parseNatDigits ds)
  else if rest.head? = some '.' ∧ rest.tail.all Char.isDigit ∧
      (ds ≠ [] ∨ rest.tail ≠ []) then
    some ((parseNatDigits ds : ℚ) +
      (parseNatDigits rest.tail : ℚ) / 10 ^ rest.tail.length)
  else none

/-- Python's `float` on a decimal literal with an optional sign. -/
def parseFloat (l : List Char) : Option ℚ :=
  if l.head? = some '-' then (parseUnsigned l.tail).map (fun q => -q)
  else if l.head? = some '+' then parseUnsigned l.tail
  else parseUnsigned l

/-- Line 37: `raw.replace(",", "")`. -/
def stripCommas (l : List Char) : List Char := l.filter (fun c => !(c == ','))

/-- Lines 33-39, `parse_number_input`: strip the thousands separators, convert
to a number and round to two decimals; on any parse failure return `0.0`
(the `except` branch) instead of propagating an error. -/
def parse_number_input (s : String) : ℚ :=
  match parseFloat (stripCommas s.data) with
  | some q => round2 q
  | none => 0

/-- Decimal digit characters of a natural number, most significant first
(`"0"` for zero), as Python's integer formatting prints them. -/
def natToDigits (n : ℕ) : List Char :=
  if n = 0 then ['0'] else ((Nat.digits 10 n).map Nat.digitChar).reverse

/-- Exactly two fractional digit characters for a cents value below 100. -/
def frac2 (m : ℕ) : List Char := [Nat.digitChar (m / 10), Nat.digitChar (m % 10)]

/-- Insert a thousands separator after every three characters of a reversed
digit string. -/
def group3Rev : List Char → List Char
  | [] => []
  | [a] => [a]
  | [a, b] => [a, b]
  | [a, b, c] => [a, b, c]
  | a :: b :: c :: d :: rest => a :: b :: c :: ',' :: group3Rev (d :: rest)

/-- Group a digit string with thousands separators, as Python's `{:,}`. -/
def group3 (l : List Char) : List Char := (group3Rev l.reverse).reverse

/-- Lines 124-126 / 203-207, `f"${x:,.2f}"`: a dollar sign, an optional minus
sign, the integer part of the two-decimal rounding grouped with thousands
separators, a dot, and exactly two fractional digits. -/
def formatCurrency (x : ℚ) : String :=
  let n : ℤ := rhe (100 * x)
  let sign : List Char := if n < 0 then ['-'] else []
  let ip := n.natAbs / 100
  let fp := n.natAbs % 100
  ⟨'$' :: (sign ++ group3 (natToDigits ip) ++ '.' :: frac2 fp)⟩

/-- Remove the currency sign before re-parsing a formatted value. -/
def stripDollar (s : String) : String := ⟨s.data.filter (fun c => !(c == '$'))⟩

/-! ### Helper lemmas about rounding -/

theorem rhe_eq_below (x : ℚ) (k : ℤ) (h1 : (k : ℚ) ≤ x) (h2 : x < (k : ℚ) + 1/2) :
    rhe x = k := by
  have hf : ⌊x⌋ = k := by
    rw [Int.floor_eq_iff]
    refine ⟨h1, ?_⟩
    linarith [h2]
  unfold rhe
  rw [hf, if_pos (by linarith)]

theorem rhe_eq_above (x : ℚ) (k : ℤ) (h1 : (k : ℚ) - 1/2 < x) (h2 : x ≤ (k : ℚ)) :
    rhe x = k := by
  rcases eq_or_lt_of_le h2 with heq | hlt
  · subst heq
    exact rhe_eq_below _ k le_rfl (by linarith)
  · have hf : ⌊x⌋ = k - 1 := by
      rw [Int.floor_eq_iff]
      constructor <;> push_cast <;> linarith
    unfold rhe
    rw [hf, if_neg (by push_cast; linarith), if_pos (by push_cast; linarith)]
    omega

theorem round2_eq_below (x : ℚ) (k : ℤ) (h1 : (k : ℚ) ≤ 100 * x)
    (h2 : 100 * x < (k : ℚ) + 1/2) : round2 x = (k : ℚ) / 100 := by
  unfold round2
  rw [rhe_eq_below _ k h1 h2]

theorem round2_cents (k : ℤ) : round2 ((k : ℚ) / 100) = (k : ℚ) / 100 := by
  unfold round2
  rw [show (100 : ℚ) * ((k : ℚ) / 100) = (k : ℚ) by ring, rhe_intCast]

/-! ### Helper lemmas about association-list lookup -/

theorem lookup_map_keys (l : List (String × ℚ)) (f : String → ℚ → ℚ)
    (h : (l.map Prod.fst).Nodup) (p : String × ℚ) (hp : p ∈ l) :
    (l.map (fun q => (q.1, f q.1 q.2))).lookup p.1 = some (f p.1 p.2) := by
  induction l with
  | nil => cases hp
  | cons a t ih =>
    rw [List.map_cons, List.nodup_cons] at h
    rcases List.mem_cons.mp hp with rfl | hpt
    · simp [List.lookup]
    · have hne : p.1 ≠ a.1 := by
        intro hcontra
        exact h.1 (hcontra ▸ List.mem_map_of_mem Prod.fst hpt)
      rw [List.map_cons, List.lookup, beq_eq_false_iff_ne.mpr hne]
      exact ih h.2 hpt

/-! ### Claim C1 -/

/-- Claim C1: for every cost input snapshot and rate table (with the rate
table's machine names duplicate-free and distinct from the fixed category
names, as the spec's Rate Table invariant requires), the computed breakdown
contains exactly the categories Labor - Worker, Labor - Office, Material plus
one entry per machine name, regardless of which inputs are zero; each labor
and machine category's cost is its hours times its rate, and the Material
cost is the snapshot's material cost unchanged. -/
theorem C1_breakdown_exact_categories_and_costs (snap : Snapshot) (rt : RateTable)
    (hnd : (rt.machineRates.map Prod.fst).Nodup)
    (hdisj : ∀ p ∈ rt.machineRates,
      p.1 ∉ ["Labor - Worker", "Labor - Office", "Material"]) :
    (computeBreakdown snap rt).map Prod.fst
        = ["Labor - Worker", "Labor - Office", "Material"] ++ rt.machineRates.map Prod.fst
    ∧ (computeBreakdown snap rt).lookup "Labor - Worker"
        = some (snap.laborWorkerHours * rt.laborWorkerRate)
    ∧ (computeBreakdown snap rt).lookup "Labor - Office"
        = some (snap.laborOfficeHours * rt.laborOfficeRate)
    ∧ (computeBreakdown snap rt).lookup "Material" = some snap.materialCost
    ∧ ∀ p ∈ rt.machineRates,
        (computeBreakdown snap rt).lookup p.1 = some (snap.machineHours p.1 * p.2) := by
  refine ⟨?_, ?_, ?_, ?_, ?_⟩
  · simp [computeBreakdown, List.map_map, Function.comp]
  · simp [computeBreakdown, List.lookup]
  · simp [computeBreakdown, List.lookup]
  · simp [computeBreakdown, List.lookup]
  · intro p hp
    have h1 : p.1 ≠ "Labor - Worker" := by
      intro hc
      exact hdisj p hp (by rw [hc]; simp)
    have h2 : p.1 ≠ "Labor - Office" := by
      intro hc
      exact hdisj p hp (by rw [hc]; simp)
    have h3 : p.1 ≠ "Material" := by
      intro hc
      exact hdisj p hp (by rw [hc]; simp)
    simp only [computeBreakdown, List.cons_append, List.nil_append, List.lookup,
      beq_eq_false_iff_ne.mpr h1, beq_eq_false_iff_ne.mpr h2, beq_eq_false_iff_ne.mpr h3]
    exact lookup_map_keys rt.machineRates (fun m r => snap.machineHours m * r) hnd p hp

/-- A sample snapshot used to instantiate the universally quantified claims
at concrete inputs. -/
def sampleSnapshot : Snapshot :=
  { laborWorkerHours := 1
    laborOfficeHours := 2
    machineHours := fun m => if m = "CNC" then 3 else 4
    materialCost := 7 }

theorem C1_breakdown_exact_categories_and_costs_witness :
    (computeBreakdown sampleSnapshot theRateTable).lookup "Robot" = some 40 := by
  have h := (C1_breakdown_exact_categories_and_costs sampleSnapshot theRateTable
    (by decide) (by decide)).2.2.2.2 ("Robot", 10) (by decide)
  have h40 : (4 : ℚ) * 10 = 40 := by norm_num
  simpa [sampleSnapshot, h40] using h

/-! ### Claim C6 -/

/-- The rate table of the spec's §8 worked scenario: worker 13.41, office
31.25, one machine CNC at 18.33. -/
def scenarioRateTable : RateTable :=
  { laborWorkerRate := 1341/100
    laborOfficeRate := 3125/100
    machineRates := [("CNC", 1833/100)] }

/-- The estimated inputs of the spec's §8 worked scenario. -/
def scenarioSnapshot : Snapshot :=
  { laborWorkerHours := 10
    laborOfficeHours := 5
    machineHours := fun m => if m = "CNC" then 2 else 0
    materialCost := 100 }

/-- Claim C6 as stated is false: with the scenario's rates and inputs the
estimated total is 427.01 (the breakdown values 134.10 + 156.25 + 100.00 +
36.66 sum to 427.01), not the claimed 426.01. -/
theorem C6_counterexample :
    sumValues (computeBreakdown scenarioSnapshot scenarioRateTable) ≠ 42601/100 := by
  simp +decide [computeBreakdown, scenarioSnapshot, scenarioRateTable, sumValues]
  norm_num

/-- Claim C6 (amended): with rates worker 13.41, office 31.25, CNC 18.33 and
estimated inputs of 10 worker hours, 5 office hours, 2 CNC hours and a 100
material cost, the breakdown is Labor - Worker 134.10, Labor - Office 156.25,
Material 100.00, CNC 36.66, and the estimated total is 427.01. -/
theorem C6_scenario_breakdown_and_total :
    computeBreakdown scenarioSnapshot scenarioRateTable
        = [("Labor - Worker", 13410/100), ("Labor - Office", 15625/100),
           ("Material", 100), ("CNC", 3666/100)]
    ∧ sumValues (computeBreakdown scenarioSnapshot scenarioRateTable) = 42701/100 := by
  constructor
  · simp +decide [computeBreakdown, scenarioSnapshot, scenarioRateTable]
    norm_num
  · simp +decide [computeBreakdown, scenarioSnapshot, scenarioRateTable, sumValues]
    norm_num

/-! ### Claims C2 and C3: the percentage columns are stored rounded -/

theorem round2_hundred_thirds : round2 (100/3) = 3333/100 := by
  rw [round2_eq_below (100/3) 3333 (by norm_num) (by norm_num)]
  norm_num

/-- The variance rows of the summary table map over the estimated categories;
their category column is exactly the estimated key list. -/
theorem variance_map_category (est act : Breakdown) :
    (computeVariance est act).map VarianceRow.category = est.map Prod.fst := by
  simp [computeVariance, List.map_map]

/-- Claim C2 as stated is false: for the category with estimated cost 3 and
actual cost 2 the stored percentage difference is the rounded 33.33, not the
exact (3 − 2) / 3 × 100. -/
theorem C2_counterexample :
    computeVariance [("M", 3)] [("M", 2)]
        = [{ category := "M", estimated := 3, actual := 2,
             differenceAbs := 1, differencePct := 3333/100 }]
    ∧ (3333/100 : ℚ) ≠ (3 - 2) / 3 * 100 := by
  constructor
  · simp +decide [computeVariance, lookupD, List.lookup]
    rw [show ((3 : ℚ) - 2) / 3 * 100 = 100/3 by norm_num, round2_hundred_thirds]
    norm_num
  · norm_num

/-- Claim C2 (amended): for every variance row with estimated cost e and
actual cost a, differenceAbs is e − a, differencePct is 0 whenever e is 0
(for every a), and when e is nonzero differencePct is e − a over e times 100
rounded to two decimal places. -/
theorem C2_variance_row_difference_policy (est act : Breakdown) (row : VarianceRow)
    (hrow : row ∈ computeVariance est act) :
    row.differenceAbs = row.estimated - row.actual
    ∧ (row.estimated = 0 → row.differencePct = 0)
    ∧ (row.estimated ≠ 0 → row.differencePct
        = round2 ((row.estimated - row.actual) / row.estimated * 100)) := by
  simp only [computeVariance, List.mem_map] at hrow
  obtain ⟨p, hp, rfl⟩ := hrow
  refine ⟨rfl, ?_, ?_⟩
  · intro h0
    show round2 (if p.2 ≠ 0 then (p.2 - lookupD act p.1 0) / p.2 * 100 else 0) = 0
    rw [if_neg (fun hne => hne h0), round2_zero]
  · intro hne
    show round2 (if p.2 ≠ 0 then (p.2 - lookupD act p.1 0) / p.2 * 100 else 0)
        = round2 ((p.2 - lookupD act p.1 0) / p.2 * 100)
    rw [if_pos hne]

theorem C2_variance_row_difference_policy_witness :
    ((⟨"M", 0, 5, -5, 0⟩ : VarianceRow)).differencePct = 0 := by
  have hmem : (⟨"M", 0, 5, -5, 0⟩ : VarianceRow) ∈ computeVariance [("M", 0)] [("M", 5)] := by
    have hv : computeVariance [("M", 0)] [("M", 5)] = [⟨"M", 0, 5, -5, 0⟩] := by
      simp +decide [computeVariance, lookupD, List.lookup, round2_zero]
    rw [hv]
    exact List.mem_singleton.mpr rfl
  exact (C2_variance_row_difference_policy [("M", 0)] [("M", 5)] _ hmem).2.1 rfl

/-- Claim C3 as stated is false: with estimated breakdown total 3 and actual
total 4 (no extras) the stored gap percentage is the rounded 33.33, not the
exact (4 − 3) / 3 × 100. -/
theorem C3_counterexample :
    (finalRows [("M", 3)] [("M", 4)] 0 0).lookup "Gap (%)" = some (3333/100)
    ∧ (3333/100 : ℚ) ≠ (4 - 3) / 3 * 100 := by
  constructor
  · simp +decide [finalRows, sumValues, List.lookup]
    rw [show ((4 : ℚ) - 3) / 3 * 100 = 100/3 by norm_num, round2_hundred_thirds]
  · norm_num

/-- Claim C3 (amended): the final summary rows hold the estimated total, the
core actual total, the full actual total (core plus warranty plus afterwork),
the absolute gap, and the gap percentage — 0 when the estimated total is 0,
otherwise the percentage rounded to two decimal places. -/
theorem C3_final_summary_fields (est act : Breakdown) (w aw : ℚ) :
    (finalRows est act w aw).lookup "Estimated Total" = some (sumValues est)
    ∧ (finalRows est act w aw).lookup "Actual Total (No Warranty/Afterwork)"
        = some (sumValues act)
    ∧ (finalRows est act w aw).lookup "Actual Total (All Included)"
        = some (sumValues act + w + aw)
    ∧ (finalRows est act w aw).lookup "Gap (USD)"
        = some (sumValues act + w + aw - sumValues est)
    ∧ (sumValues est = 0 → (finalRows est act w aw).lookup "Gap (%)" = some 0)
    ∧ (sumValues est ≠ 0 → (finalRows est act w aw).lookup "Gap (%)"
        = some (round2 ((sumValues act + w + aw - sumValues est) / sumValues est * 100))) := by
  refine ⟨?_, ?_, ?_, ?_, ?_, ?_⟩
  · simp +decide [finalRows, List.lookup]
  · simp +decide [finalRows, List.lookup]
  · simp +decide [finalRows, List.lookup]
  · simp +decide [finalRows, List.lookup]
  · intro h0
    simp +decide [finalRows, List.lookup, h0]
  · intro hne
    simp +decide [finalRows, List.lookup, hne]

theorem C3_final_summary_fields_witness :
    (finalRows [("M", 3)] [("M", 4)] 0 0).lookup "Gap (%)" = some (3333/100)
    ∧ (finalRows [("M", 3)] [("M", 4)] 0 0).lookup "Gap (USD)" = some 1 := by
  have h := C3_final_summary_fields [("M", 3)] [("M", 4)] 0 0
  have hs3 : sumValues [(("M" : String), (3 : ℚ))] = 3 := by simp [sumValues]
  have hs4 : sumValues [(("M" : String), (4 : ℚ))] = 4 := by simp [sumValues]
  constructor
  · have hpct := h.2.2.2.2.2 (by rw [hs3]; norm_num)
    rw [hs3, hs4] at hpct
    rw [hpct, show ((4 : ℚ) + 0 + 0 - 3) / 3 * 100 = 100/3 by norm_num,
      round2_hundred_thirds]
  · have habs := h.2.2.2.1
    rw [hs3, hs4] at habs
    rw [habs]
    norm_num

/-! ### Claim C4: there is no degenerate fallback mode -/

/-- The all-zero input snapshot: the user entered no hours or costs at all. -/
def zeroSnapshot : Snapshot :=
  { laborWorkerHours := 0
    laborOfficeHours := 0
    machineHours := fun _ => 0
    materialCost := 0 }

/-- Claim C4 as stated is false: with every input zero both computed totals
are exactly 0, yet the cost breakdown and the variance rows are not empty
collections — the program computes the full per-category tables
unconditionally and offers no lump-sum fallback inputs. -/
theorem C4_counterexample :
    sumValues (computeBreakdown zeroSnapshot theRateTable) = 0
    ∧ sumValues (computeBreakdown zeroSnapshot theRateTable) + 0 + 0 = 0
    ∧ computeBreakdown zeroSnapshot theRateTable ≠ []
    ∧ computeVariance (computeBreakdown zeroSnapshot theRateTable)
        (computeBreakdown zeroSnapshot theRateTable) ≠ [] := by
  refine ⟨?_, ?_, ?_, ?_⟩
  · simp +decide [computeBreakdown, zeroSnapshot, theRateTable, MACHINE_COST, sumValues]
  · simp +decide [computeBreakdown, zeroSnapshot, theRateTable, MACHINE_COST, sumValues]
  · simp +decide [computeBreakdown, zeroSnapshot, theRateTable, MACHINE_COST]
  · simp +decide [computeVariance, computeBreakdown, zeroSnapshot, theRateTable,
      MACHINE_COST]

/-- Claim C4 (amended): there is no fallback mode — the breakdown, variance
rows and final summary are always computed from the categorized inputs; when
both computed totals are exactly 0 the variance rows still cover every
estimated category and the final summary reports an absolute gap of 0 and a
gap percentage of 0. -/
theorem C4_no_fallback_zero_totals (est act : Breakdown) (w aw : ℚ)
    (h1 : sumValues est = 0) (h2 : sumValues act + w + aw = 0) :
    (finalRows est act w aw).lookup "Gap (USD)" = some 0
    ∧ (finalRows est act w aw).lookup "Gap (%)" = some 0
    ∧ (computeVariance est act).map VarianceRow.category = est.map Prod.fst := by
  refine ⟨?_, ?_, variance_map_category est act⟩
  · simp +decide [finalRows, List.lookup, h1, h2]
  · simp +decide [finalRows, List.lookup, h1]

theorem C4_no_fallback_zero_totals_witness :
    (finalRows (computeBreakdown zeroSnapshot theRateTable)
        (computeBreakdown zeroSnapshot theRateTable) 0 0).lookup "Gap (%)" = some 0 := by
  refine (C4_no_fallback_zero_totals _ _ 0 0 ?_ ?_).2.1 <;>
    simp +decide [computeBreakdown, zeroSnapshot, theRateTable, MACHINE_COST, sumValues]

/-! ### Claim C5: the variance loop iterates only the estimated keys -/

/-- Claim C5 as stated is false: a category present only in the actual
breakdown ("Extra" with actual value 7) produces no variance row at all —
the loop runs over the estimated dictionary's keys, not the union. -/
theorem C5_counterexample :
    (computeVariance [("Material", 5)] [("Material", 5), ("Extra", 7)]).map
        VarianceRow.category = ["Material"]
    ∧ (computeVariance [("Material", 5)] [("Material", 5), ("Extra", 7)]).filter
        (fun r => r.category == "Extra") = [] := by
  constructor
  · simp [variance_map_category]
  · simp +decide [computeVariance, lookupD, List.lookup]

/-- Claim C5 (amended): computeVariance iterates exactly the categories of
the estimated breakdown (a category present only in the actual breakdown
yields no row); a category absent from the actual side is treated as having
actual value 0, so its row has actual = 0 and differenceAbs = estimated. -/
theorem C5_variance_iterates_estimated_keys (est act : Breakdown) :
    (computeVariance est act).map VarianceRow.category = est.map Prod.fst
    ∧ ∀ row ∈ computeVariance est act, act.lookup row.category = none →
        row.actual = 0 ∧ row.differenceAbs = row.estimated := by
  refine ⟨variance_map_category est act, ?_⟩
  intro row hrow hnone
  simp only [computeVariance, List.mem_map] at hrow
  obtain ⟨p, hp, rfl⟩ := hrow
  simp only at hnone ⊢
  rw [lookupD, hnone]
  exact ⟨rfl, by simp⟩

theorem C5_variance_iterates_estimated_keys_witness :
    ((⟨"M", 2, 0, 2, 100⟩ : VarianceRow)).actual = 0 := by
  have hmem : (⟨"M", 2, 0, 2, 100⟩ : VarianceRow) ∈ computeVariance [("M", 2)] [] := by
    have hv : computeVariance [("M", 2)] [] = [⟨"M", 2, 0, 2, 100⟩] := by
      simp +decide [computeVariance, lookupD, List.lookup]
      rw [show (100 : ℚ) = ((10000 : ℤ) : ℚ) / 100 by norm_num]
      exact round2_cents 10000
    rw [hv]
    exact List.mem_singleton.mpr rfl
  exact ((C5_variance_iterates_estimated_keys [("M", 2)] []).2 _ hmem rfl).1

/-! ### Claims C8 and C9: the lenient parser -/

/-- Claim C8: numeric parsing first strips thousands separators; whenever the
remaining text cannot be parsed as a number, `parse_number_input` returns 0.0
(it is a total function — the failure is absorbed by the `except` branch and
never surfaced to the caller). -/
theorem C8_parse_failure_returns_zero (s : String)
    (h : parseFloat (stripCommas s.data) = none) : parse_number_input s = 0 := by
  unfold parse_number_input
  rw [h]

theorem C8_parse_failure_returns_zero_witness : parse_number_input "abc" = 0 :=
  C8_parse_failure_returns_zero "abc"
    (by simp +decide [stripCommas, parseFloat, parseUnsigned])

/-- The snapshot produced by typing `-5` into the estimated worker-hours
field (lines 44-50 of `app.py`), every other input left at zero. -/
def negSnapshot : Snapshot :=
  { laborWorkerHours := parse_number_input "-5"
    laborOfficeHours := 0
    machineHours := fun _ => 0
    materialCost := 0 }

/-- Claim C9: every string that parses as a float after removing commas is
returned rounded to two decimal places; there is no non-negativity check, so
the input "-5" is accepted as −5 and makes the estimated Labor - Worker cost
negative (−50 at the configured rate of 10). -/
theorem C9_parse_rounds_and_allows_negative :
    (∀ (s : String) (q : ℚ), parseFloat (stripCommas s.data) = some q →
      parse_number_input s = round2 q)
    ∧ parse_number_input "-5" = -5
    ∧ (computeBreakdown negSnapshot theRateTable).lookup "Labor - Worker"
        = some (-50)
    ∧ (-50 : ℚ) < 0 := by
  have h5 : parse_number_input "-5" = -5 := by
    simp +decide [parse_number_input, stripCommas, parseFloat, parseUnsigned,
      parseNatDigits, digitVal]
    rw [show (-5 : ℚ) = ((-500 : ℤ) : ℚ) / 100 by norm_num]
    exact round2_cents (-500)
  refine ⟨?_, h5, ?_, by norm_num⟩
  · intro s q h
    unfold parse_number_input
    rw [h]
  · simp +decide [computeBreakdown, negSnapshot, theRateTable, List.lookup, h5]
    norm_num [LABOR_COST_WORKER]

theorem C9_parse_rounds_and_allows_negative_witness :
    parse_number_input "1,000" = round2 1000 :=
  C9_parse_rounds_and_allows_negative.1 "1,000" 1000
    (by simp +decide [stripCommas, parseFloat, parseUnsigned, parseNatDigits, digitVal])

/-! ### Claim C10: percentages are rounded before being stored -/

/-- Claim C10: both percentage outputs are rounded to two decimal places at
computation time: every variance row's stored differencePct and the value
stored in the final summary's Gap (%) row are fixed points of `round2`, i.e.
exact two-decimal values — the unrounded percentage never appears in the
output structures.  (That the stored value is `round2` of the exact
percentage is the amended content of claims C2 and C3.) -/
theorem C10_percentages_stored_rounded (est act : Breakdown) (w aw : ℚ) :
    (∀ row ∈ computeVariance est act,
      round2 row.differencePct = row.differencePct)
    ∧ ∀ v, (finalRows est act w aw).lookup "Gap (%)" = some v → round2 v = v := by
  constructor
  · intro row hrow
    simp only [computeVariance, List.mem_map] at hrow
    obtain ⟨p, hp, rfl⟩ := hrow
    exact round2_round2 _
  · intro v hv
    simp [finalRows, List.lookup] at hv
    subst hv
    by_cases h : sumValues est = 0 <;>
      simp [h, round2_zero, round2_round2]

theorem C10_percentages_stored_rounded_witness :
    round2 (3333/100 : ℚ) = 3333/100 := by
  have hv : computeVariance [("M", 3)] [("M", 2)]
      = [⟨"M", 3, 2, 1, 3333/100⟩] := by
    simp +decide [computeVariance, lookupD, List.lookup]
    rw [show ((3 : ℚ) - 2) / 3 * 100 = 100/3 by norm_num, round2_hundred_thirds]
    norm_num
  have hmem : (⟨"M", 3, 2, 1, 3333/100⟩ : VarianceRow)
      ∈ computeVariance [("M", 3)] [("M", 2)] := by
    rw [hv]
    exact List.mem_singleton.mpr rfl
  have h := (C10_percentages_stored_rounded [("M", 3)] [("M", 2)] 0 0).1 _ hmem
  exact h

/-! ### Claim C7: the currency format/parse round trip -/

theorem digitChar_isDigit {d : ℕ} (h : d < 10) : (Nat.digitChar d).isDigit = true := by
  interval_cases d <;> decide

theorem digitVal_digitChar {d : ℕ} (h : d < 10) : digitVal (Nat.digitChar d) = d := by
  interval_cases d <;> decide

theorem isDigit_ne_comma {c : Char} (h : c.isDigit = true) : ¬(c = ',') := by
  rintro rfl
  exact absurd h (by decide)

theorem isDigit_ne_dollar {c : Char} (h : c.isDigit = true) : ¬(c = '$') := by
  rintro rfl
  exact absurd h (by decide)

theorem isDigit_ne_minus {c : Char} (h : c.isDigit = true) : ¬(c = '-') := by
  rintro rfl
  exact absurd h (by decide)

theorem isDigit_ne_plus {c : Char} (h : c.isDigit = true) : ¬(c = '+') := by
  rintro rfl
  exact absurd h (by decide)

theorem natToDigits_isDigit (n : ℕ) : ∀ c ∈ natToDigits n, c.isDigit = true := by
  intro c hc
  unfold natToDigits at hc
  by_cases h0 : n = 0
  · rw [if_pos h0] at hc
    simp only [List.mem_singleton] at hc
    subst hc
    decide
  · rw [if_neg h0] at hc
    rw [List.mem_reverse, List.mem_map] at hc
    obtain ⟨d, hd, rfl⟩ := hc
    exact digitChar_isDigit (Nat.digits_lt_base (by norm_num) hd)

theorem natToDigits_ne_nil (n : ℕ) : natToDigits n ≠ [] := by
  unfold natToDigits
  by_cases h0 : n = 0
  · rw [if_pos h0]
    simp
  · rw [if_neg h0]
    intro hcontra
    have hnil : Nat.digits 10 n = [] := by simpa using hcontra
    exact Nat.digits_ne_nil_iff_ne_zero.mpr h0 hnil

theorem foldr_digits_eq_ofDigits (L : List ℕ) (h : ∀ d ∈ L, d < 10) :
    L.foldr (fun x y => 10 * y + digitVal (Nat.digitChar x)) 0 = Nat.ofDigits 10 L := by
  induction L with
  | nil => simp [Nat.ofDigits]
  | cons d L ih =>
    rw [List.foldr_cons, Nat.ofDigits_cons,
      ih (fun e he => h e (List.mem_cons_of_mem d he)),
      digitVal_digitChar (h d (List.mem_cons_self d L))]
    omega

theorem parseNatDigits_natToDigits (n : ℕ) : parseNatDigits (natToDigits n) = n := by
  by_cases h0 : n = 0
  · subst h0
    decide
  · unfold natToDigits parseNatDigits
    rw [if_neg h0, List.foldl_reverse, List.foldr_map]
    rw [foldr_digits_eq_ofDigits _ (fun d hd => Nat.digits_lt_base (by norm_num) hd)]
    exact Nat.ofDigits_digits 10 n

theorem parseNatDigits_frac2 {m : ℕ} (h : m < 100) : parseNatDigits (frac2 m) = m := by
  unfold parseNatDigits frac2
  rw [List.foldl_cons, List.foldl_cons, List.foldl_nil]
  rw [digitVal_digitChar (by omega), digitVal_digitChar (Nat.mod_lt _ (by norm_num))]
  omega

theorem frac2_isDigit {m : ℕ} (h : m < 100) : ∀ c ∈ frac2 m, c.isDigit = true := by
  intro c hc
  unfold frac2 at hc
  simp only [List.mem_cons, List.mem_singleton, List.not_mem_nil, or_false] at hc
  rcases hc with rfl | rfl
  · exact digitChar_isDigit (by omega)
  · exact digitChar_isDigit (Nat.mod_lt _ (by norm_num))

theorem filter_group3Rev : ∀ l : List Char, (∀ c ∈ l, ¬(c = ',')) →
    (group3Rev l).filter (fun c => !(c == ',')) = l
  | [], _ => rfl
  | [a], h => by
    have ha := beq_eq_false_iff_ne.mpr (h a (by simp))
    simp [group3Rev, ha]
  | [a, b], h => by
    have ha := beq_eq_false_iff_ne.mpr (h a (by simp))
    have hb := beq_eq_false_iff_ne.mpr (h b (by simp))
    simp [group3Rev, ha, hb]
  | [a, b, c], h => by
    have ha := beq_eq_false_iff_ne.mpr (h a (by simp))
    have hb := beq_eq_false_iff_ne.mpr (h b (by simp))
    have hc := beq_eq_false_iff_ne.mpr (h c (by simp))
    simp [group3Rev, ha, hb, hc]
  | a :: b :: c :: d :: rest, h => by
    have ha := beq_eq_false_iff_ne.mpr (h a (by simp))
    have hb := beq_eq_false_iff_ne.mpr (h b (by simp))
    have hc := beq_eq_false_iff_ne.mpr (h c (by simp))
    have ih := filter_group3Rev (d :: rest)
      (fun e he => h e (by simp only [List.mem_cons] at he ⊢; tauto))
    simp [group3Rev, ha, hb, hc, ih]

theorem mem_group3Rev : ∀ (l : List Char) (c : Char), c ∈ group3Rev l → c ∈ l ∨ c = ','
  | [], c, h => by simp [group3Rev] at h
  | [a], c, h => Or.inl h
  | [a, b], c, h => Or.inl h
  | [a, b, c₀], c, h => Or.inl h
  | a :: b :: c₀ :: d :: rest, c, h => by
    simp only [group3Rev, List.mem_cons] at h
    rcases h with rfl | rfl | rfl | rfl | h
    · exact Or.inl (by simp)
    · exact Or.inl (by simp)
    · exact Or.inl (by simp)
    · exact Or.inr rfl
    · rcases mem_group3Rev (d :: rest) c h with hm | he
      · exact Or.inl (by simp only [List.mem_cons] at hm ⊢; tauto)
      · exact Or.inr he

theorem mem_group3 (l : List Char) (c : Char) (hc : c ∈ group3 l) : c ∈ l ∨ c = ',' := by
  unfold group3 at hc
  rw [List.mem_reverse] at hc
  rcases mem_group3Rev l.reverse c hc with hm | he
  · exact Or.inl (List.mem_reverse.mp hm)
  · exact Or.inr he

theorem stripCommas_group3 (l : List Char) (h : ∀ c ∈ l, ¬(c = ',')) :
    stripCommas (group3 l) = l := by
  unfold stripCommas group3
  rw [List.filter_reverse, filter_group3Rev l.reverse
    (fun c hc => h c (List.mem_reverse.mp hc)), List.reverse_reverse]

theorem takeWhile_append_stop {α : Type} (p : α → Bool) (A : List α) (b : α) (B : List α)
    (hA : ∀ c ∈ A, p c = true) (hb : p b = false) :
    (A ++ b :: B).takeWhile p = A ∧ (A ++ b :: B).dropWhile p = b :: B := by
  induction A with
  | nil =>
    simp [List.takeWhile_cons, List.dropWhile_cons, hb]
  | cons a A ih =>
    have ha : p a = true := hA a (by simp)
    have ih' := ih (fun c hc => hA c (by simp [hc]))
    simp [List.takeWhile_cons, List.dropWhile_cons, ha, ih'.1, ih'.2]

theorem parseUnsigned_digits_dot (D F : List Char)
    (hD : ∀ c ∈ D, c.isDigit = true) (hF : ∀ c ∈ F, c.isDigit = true) (hne : D ≠ []) :
    parseUnsigned (D ++ '.' :: F)
      = some ((parseNatDigits D : ℚ) + (parseNatDigits F : ℚ) / 10 ^ F.length) := by
  obtain ⟨htake, hdrop⟩ :=
    takeWhile_append_stop Char.isDigit D '.' F hD (by decide)
  simp only [parseUnsigned, htake, hdrop]
  rw [if_neg (by simp)]
  rw [if_pos]
  · simp
  · refine ⟨rfl, ?_, Or.inl hne⟩
    simp only [List.tail_cons]
    exact List.all_eq_true.mpr hF

theorem parseFloat_of_digit_head (c : Char) (rest : List Char) (hc : c.isDigit = true) :
    parseFloat (c :: rest) = parseUnsigned (c :: rest) := by
  have h1 : ¬((c :: rest).head? = some '-') := by
    simp only [List.head?_cons, Option.some.injEq]
    exact isDigit_ne_minus hc
  have h2 : ¬((c :: rest).head? = some '+') := by
    simp only [List.head?_cons, Option.some.injEq]
    exact isDigit_ne_plus hc
  unfold parseFloat
  rw [if_neg h1, if_neg h2]

theorem parseFloat_neg_sign (l : List Char) :
    parseFloat ('-' :: l) = (parseUnsigned l).map (fun q => -q) := by
  unfold parseFloat
  rw [if_pos (by simp)]
  rfl

/-- Parsing the comma- and dollar-stripped rendering of a cents value `n`
recovers exactly `n / 100`. -/
theorem parse_stripped (n : ℤ) :
    parseFloat (stripCommas (List.filter (fun c => !(c == '$'))
        ('$' :: ((if n < 0 then ['-'] else [])
          ++ group3 (natToDigits (n.natAbs / 100)) ++ '.' :: frac2 (n.natAbs % 100)))))
      = some ((n : ℚ) / 100) := by
  have hfp : n.natAbs % 100 < 100 := Nat.mod_lt _ (by norm_num)
  have hDdig := natToDigits_isDigit (n.natAbs / 100)
  have hFdig := frac2_isDigit hfp
  have hdollar : List.filter (fun c => !(c == '$'))
      ('$' :: ((if n < 0 then ['-'] else [])
        ++ group3 (natToDigits (n.natAbs / 100)) ++ '.' :: frac2 (n.natAbs % 100)))
      = (if n < 0 then ['-'] else [])
        ++ group3 (natToDigits (n.natAbs / 100)) ++ '.' :: frac2 (n.natAbs % 100) := by
    rw [List.filter_cons]
    rw [show ((!( '$' == '$')) = false) from rfl]
    simp only [Bool.false_eq_true, if_false]
    rw [List.filter_eq_self.mpr]
    intro c hc
    simp only [List.mem_append, List.mem_cons] at hc
    simp only [Bool.not_eq_true', beq_eq_false_iff_ne]
    rcases hc with (hsign | hg) | (rfl | hf)
    · by_cases hneg : n < 0
      · rw [if_pos hneg] at hsign
        simp only [List.mem_singleton] at hsign
        subst hsign
        decide
      · rw [if_neg hneg] at hsign
        simp at hsign
    · rcases mem_group3 _ c hg with hd | rfl
      · exact isDigit_ne_dollar (hDdig c hd)
      · decide
    · decide
    · exact isDigit_ne_dollar (hFdig c hf)
  rw [hdollar]
  have e1 : List.filter (fun c => !(c == ','))
      (if n < 0 then ['-'] else []) = (if n < 0 then ['-'] else []) := by
    by_cases hneg : n < 0
    · rw [if_pos hneg]
      decide
    · rw [if_neg hneg]
      rfl
  have e2 : List.filter (fun c => !(c == ','))
      (group3 (natToDigits (n.natAbs / 100))) = natToDigits (n.natAbs / 100) :=
    stripCommas_group3 (natToDigits (n.natAbs / 100))
      (fun c hc => isDigit_ne_comma (hDdig c hc))
  have e3 : List.filter (fun c => !(c == ','))
      ('.' :: frac2 (n.natAbs % 100)) = '.' :: frac2 (n.natAbs % 100) := by
    rw [List.filter_eq_self.mpr]
    intro c hc
    simp only [Bool.not_eq_true', beq_eq_false_iff_ne]
    rcases List.mem_cons.mp hc with rfl | hcf
    · decide
    · exact isDigit_ne_comma (hFdig c hcf)
  have hsc : stripCommas ((if n < 0 then ['-'] else [])
      ++ group3 (natToDigits (n.natAbs / 100)) ++ '.' :: frac2 (n.natAbs % 100))
      = (if n < 0 then ['-'] else [])
        ++ natToDigits (n.natAbs / 100) ++ '.' :: frac2 (n.natAbs % 100) := by
    unfold stripCommas
    rw [List.filter_append, List.filter_append, e1, e2, e3]
  rw [hsc]
  have hdm : 100 * (n.natAbs / 100) + n.natAbs % 100 = n.natAbs := Nat.div_add_mod _ _
  have hcast : (100 : ℚ) * ((n.natAbs / 100 : ℕ) : ℚ) + ((n.natAbs % 100 : ℕ) : ℚ)
      = ((n.natAbs : ℕ) : ℚ) := by
    exact_mod_cast hdm
  have hval : ((parseNatDigits (natToDigits (n.natAbs / 100)) : ℕ) : ℚ)
      + ((parseNatDigits (frac2 (n.natAbs % 100)) : ℕ) : ℚ)
        / 10 ^ (frac2 (n.natAbs % 100)).length
      = ((n.natAbs : ℕ) : ℚ) / 100 := by
    rw [parseNatDigits_natToDigits, parseNatDigits_frac2 hfp,
      show (frac2 (n.natAbs % 100)).length = 2 from rfl,
      show ((10 : ℚ) ^ 2) = 100 by norm_num]
    field_simp
    linarith [hcast]
  by_cases hneg : n < 0
  · rw [if_pos hneg, List.singleton_append, List.cons_append]
    rw [parseFloat_neg_sign,
      parseUnsigned_digits_dot _ _ hDdig hFdig (natToDigits_ne_nil _)]
    rw [Option.map_some']
    rw [hval]
    have hna : ((n.natAbs : ℤ) : ℚ) = -(n : ℚ) := by
      have : (n.natAbs : ℤ) = -n := by omega
      exact_mod_cast this
    rw [show ((n.natAbs : ℕ) : ℚ) = ((n.natAbs : ℤ) : ℚ) from (Int.cast_natCast _).symm,
      hna]
    ring_nf
  · rw [if_neg hneg, List.nil_append]
    obtain ⟨c, D, hD⟩ := List.exists_cons_of_ne_nil (natToDigits_ne_nil (n.natAbs / 100))
    have hchead : c.isDigit = true := by
      apply natToDigits_isDigit (n.natAbs / 100)
      rw [hD]
      simp
    rw [show natToDigits (n.natAbs / 100) ++ '.' :: frac2 (n.natAbs % 100)
        = c :: (D ++ '.' :: frac2 (n.natAbs % 100)) by rw [hD, List.cons_append]]
    rw [parseFloat_of_digit_head c _ hchead]
    rw [show c :: (D ++ '.' :: frac2 (n.natAbs % 100))
        = natToDigits (n.natAbs / 100) ++ '.' :: frac2 (n.natAbs % 100) by
      rw [hD, List.cons_append]]
    rw [parseUnsigned_digits_dot _ _ hDdig hFdig (natToDigits_ne_nil _)]
    rw [hval]
    have hna : ((n.natAbs : ℤ) : ℚ) = (n : ℚ) := by
      have : (n.natAbs : ℤ) = n := by omega
      exact_mod_cast this
    rw [show ((n.natAbs : ℕ) : ℚ) = ((n.natAbs : ℤ) : ℚ) from (Int.cast_natCast _).symm,
      hna]

/-- Claim C7: formatting a cost with the `$#,##0.00` pattern and parsing the
resulting string back — stripping the dollar sign, with the parser itself
stripping the thousands separators — yields exactly the original value
rounded to two decimal places. -/
theorem C7_currency_round_trip (x : ℚ) :
    parse_number_input (stripDollar (formatCurrency x)) = round2 x := by
  have e : parseFloat (stripCommas (stripDollar (formatCurrency x)).data)
      = some ((rhe (100 * x) : ℚ) / 100) := parse_stripped (rhe (100 * x))
  unfold parse_number_input
  rw [e]
  show round2 ((rhe (100 * x) : ℚ) / 100) = round2 x
  rw [round2_cents]
  rfl

end App
